import Mathlib

/-!
# librbd CopyupRequest: a shallow embedding

Source: `src/librbd/CopyupRequest.cc`.

The C++ object `CopyupRequest` is embedded as a record; the parts of
`ImageCtx` that the file touches (the copy-up registry `copyup_list`, its
lock, the snapshot context and its read/write lock) are a second record.
Calls into collaborators whose code is outside the file (completing an
`AioRequest`, `aio_read`, `aio_operate`, releasing a completion, signalling
the condition) are recorded, in program order, in an effect trace.
Every `assert` of the source is fatal: a failing assertion stops the run
and the embedding returns `Result.abort` with the state reached so far.
Logging (`ldout`) has no effect on the state and is left out.
-/

namespace librbd

/-! ## Data model -/

/-- The `::SnapContext` of an image: sequence number and snapshot ids. -/
structure SnapContext where
  seq : Nat
  snaps : List Nat
  deriving DecidableEq, Repr

/-- One call recorded in a `librados::ObjectWriteOperation`:
`exec(cls, method, inbl)`. -/
structure ExecCall where
  cls : String
  method : String
  inbl : List Nat
  deriving DecidableEq, Repr

/-- The effects on collaborators, in program order. -/
inductive Event where
  /-- The call `req->complete(r)` on the pending `AioRequest` with handle `req`. -/
  | complete (req : Nat) (r : Int)
  /-- The call `m_ictx->snap_lock.get_read()`. -/
  | snap_lock_get_read
  /-- The call `m_ictx->snap_lock.put_read()`. -/
  | snap_lock_put_read
  /-- The call `m_ictx->md_ctx.aio_operate(oid, comp, &op, seq, snaps)`. -/
  | aio_operate (oid : String) (op : List ExecCall) (seq : Nat) (snaps : List Nat)
  /-- The call `comp->release()` on the librados completion of the copyup write. -/
  | rados_comp_release
  /-- The call `aio_create_completion_internal(this, &read_from_parent_cb)`. -/
  | aio_create_completion_internal
  /-- The call `aio_read(m_ictx->parent, image_extents, NULL, &m_copyup_data, comp, 0)`. -/
  | aio_read (image_extents : List (Nat × Nat))
  /-- The call `comp->release()` on the completion of the parent read. -/
  | parent_comp_release
  /-- The declaration `Mutex::Locker l(copyup_list_lock)`: the lock is taken. -/
  | copyup_list_lock_Lock
  /-- End of the scope of the `Mutex::Locker`: the lock is released. -/
  | copyup_list_lock_Unlock
  /-- The call `m_ictx->copyup_list.erase(it)` for the entry with key `object_no`. -/
  | copyup_list_erase (object_no : Nat)
  /-- The call `m_ictx->copyup_list_cond.Signal()`. -/
  | copyup_list_cond_Signal
  /-- The call `m_ictx->copyup_finisher->queue(ctx)` with a `C_ReadFromParent`. -/
  | finisher_queue (image_extents : List (Nat × Nat))
  deriving DecidableEq, Repr

/-- The fields of `ImageCtx` used by `CopyupRequest.cc`.
`copyup_list` is the `map<uint64_t, CopyupRequest*>`: pairs of object number
and address of the request, `copyup_list_lock` is `is_locked()` of the
mutex, `snap_lock` the number of readers holding the snapshot lock. -/
structure ImageCtx where
  copyup_list : List (Nat × Nat)
  copyup_list_lock : Bool
  snap_lock : Nat
  snapc : SnapContext
  deriving DecidableEq, Repr

/-- The members of `CopyupRequest` (the back pointer `m_ictx` is the
`ImageCtx` of the `World` the operations run in). `m_pending_requests` is the
`vector<AioRequest *>`, a handle per request. -/
structure CopyupRequest where
  m_oid : String
  m_object_no : Nat
  m_send_copyup : Bool
  m_copyup_data : List Nat
  m_pending_requests : List Nat
  deriving DecidableEq, Repr

/-- The image context together with the effects issued so far. -/
structure World where
  ictx : ImageCtx
  trace : List Event
  deriving DecidableEq, Repr

/-- The three assertions of `~CopyupRequest`. -/
inductive Assertion where
  /-- The assertion `assert(m_ictx->copyup_list_lock.is_locked())`. -/
  | lock_is_locked
  /-- The assertion `assert(m_pending_requests.empty())`. -/
  | pending_requests_empty
  /-- The assertion `assert(it != m_ictx->copyup_list.end())`. -/
  | slot_found
  deriving DecidableEq, Repr

/-- Outcome of a member function that may run into an assertion: it returns
normally with a value and the new world, or the process aborts at an
assertion in the world reached at that point. -/
inductive Result (α : Type) where
  | ok (a : α) (w : World)
  | abort (a : Assertion) (w : World)
  deriving DecidableEq, Repr

/-- The world in which a run ended, normally or not. -/
def Result.world {α : Type} : Result α → World
  | .ok _ w => w
  | .abort _ w => w

/-- Appends one effect to the trace. -/
def World.emit (w : World) (e : Event) : World :=
  { w with trace := w.trace ++ [e] }

/-! ## `std::map` operations used on `copyup_list` -/

/-- The call `copyup_list.find(k)`: the position of the entry with key `k`
(`none` is `end()`). -/
def map_find : List (Nat × Nat) → Nat → Option Nat
  | [], _ => none
  | (k', _) :: rest, k =>
    if k' = k then some 0 else (map_find rest k).map (· + 1)

/-- The call `copyup_list.erase(it)`. -/
def map_erase (m : List (Nat × Nat)) (it : Nat) : List (Nat × Nat) :=
  m.eraseIdx it

/-- The request a key maps to: `find(k)->second`, `none` when `find`
returns `end()`. -/
def map_lookup (m : List (Nat × Nat)) (k : Nat) : Option Nat :=
  match map_find m k with
  | none => none
  | some it => (m.get? it).map Prod.snd

/-- The keys of a `std::map` are pairwise distinct. -/
def map_wf (m : List (Nat × Nat)) : Prop :=
  (m.map Prod.fst).Nodup

instance (m : List (Nat × Nat)) : Decidable (map_wf m) := by
  unfold map_wf; infer_instance

/-! ## `Mutex` -/

/-- Modelled from the spec: `Mutex::Lock` on `copyup_list_lock` (the class
`Mutex` is declared in `common/Mutex.h`, not in this file). "Acquires the
registry lock": when the call returns the lock is held. -/
def copyup_list_lock_Lock (w : World) : World :=
  { ictx := { w.ictx with copyup_list_lock := true },
    trace := w.trace ++ [Event.copyup_list_lock_Lock] }

/-- Modelled from the spec: `Mutex::Unlock` on `copyup_list_lock`, run by the
destructor of the `Mutex::Locker` at the end of its scope. -/
def copyup_list_lock_Unlock (w : World) : World :=
  { ictx := { w.ictx with copyup_list_lock := false },
    trace := w.trace ++ [Event.copyup_list_lock_Unlock] }

/-! ## The member functions of `CopyupRequest` -/

/-- The constructor `CopyupRequest(ictx, oid, objectno, send_copyup)`:
the buffer and the pending vector start empty. -/
def CopyupRequest.new (oid : String) (objectno : Nat) (send_copyup : Bool) :
    CopyupRequest :=
  { m_oid := oid, m_object_no := objectno, m_send_copyup := send_copyup,
    m_copyup_data := [], m_pending_requests := [] }

/-- The destructor `~CopyupRequest`. -/
def CopyupRequest.destructor (req : CopyupRequest) (w : World) : Result Unit :=
  if w.ictx.copyup_list_lock = false then
    .abort .lock_is_locked w
  else if req.m_pending_requests.isEmpty = false then
    .abort .pending_requests_empty w
  else
    match map_find w.ictx.copyup_list req.m_object_no with
    | none => .abort .slot_found w
    | some it =>
      let w1 : World :=
        { ictx := { w.ictx with copyup_list := map_erase w.ictx.copyup_list it },
          trace := w.trace ++ [Event.copyup_list_erase req.m_object_no] }
      if w1.ictx.copyup_list.isEmpty then
        .ok () (w1.emit Event.copyup_list_cond_Signal)
      else
        .ok () w1

/-- The accessor `get_copyup_data`. -/
def CopyupRequest.get_copyup_data (req : CopyupRequest) : List Nat :=
  req.m_copyup_data

/-- The member `append_request`: `m_pending_requests.push_back(req)`. -/
def CopyupRequest.append_request (self : CopyupRequest) (req : Nat) :
    CopyupRequest :=
  { self with m_pending_requests := self.m_pending_requests ++ [req] }

/-- The `while` loop of `complete_all` on the pending vector: while it is
not empty, complete the element at `begin()` and erase it. Returns the
vector and the world at loop exit. -/
def complete_all_loop : List Nat → Int → World → List Nat × World
  | [], _, w => ([], w)
  | req :: rest, r, w => complete_all_loop rest r (w.emit (Event.complete req r))

/-- The member `complete_all(r)`. -/
def CopyupRequest.complete_all (self : CopyupRequest) (r : Int) (w : World) :
    CopyupRequest × World :=
  let res := complete_all_loop self.m_pending_requests r w
  ({ self with m_pending_requests := res.1 }, res.2)

/-- The copy `snaps.insert(snaps.end(), first, last)` of a range into a
vector. -/
def vector_insert_end (snaps : List Nat) (range : List Nat) : List Nat :=
  snaps ++ range

/-- The member `send_copyup(r)`; `r` is not used by the body. -/
def CopyupRequest.send_copyup (self : CopyupRequest) (_r : Int) (w : World) :
    World :=
  -- m_ictx->snap_lock.get_read()
  let w1 : World :=
    { ictx := { w.ictx with snap_lock := w.ictx.snap_lock + 1 },
      trace := w.trace ++ [Event.snap_lock_get_read] }
  let snapc : SnapContext := w1.ictx.snapc
  -- m_ictx->snap_lock.put_read()
  let w2 : World :=
    { ictx := { w1.ictx with snap_lock := w1.ictx.snap_lock - 1 },
      trace := w1.trace ++ [Event.snap_lock_put_read] }
  let snaps : List Nat := vector_insert_end [] snapc.snaps
  let copyup_op : List ExecCall :=
    [{ cls := "rbd", method := "copyup", inbl := self.m_copyup_data }]
  let w3 := w2.emit (Event.aio_operate self.m_oid copyup_op snapc.seq snaps)
  w3.emit Event.rados_comp_release

/-- The member `read_from_parent(image_extents)`. `aio_read_ret` is the
value returned by the call of `aio_read`. The result is the request when it
is still alive after the call and `none` when it has been deleted. -/
def CopyupRequest.read_from_parent (self : CopyupRequest) (aio_read_ret : Int)
    (image_extents : List (Nat × Nat)) (w : World) :
    Result (Option CopyupRequest) :=
  let w1 := w.emit Event.aio_create_completion_internal
  let w2 := w1.emit (Event.aio_read image_extents)
  if aio_read_ret < 0 then
    let w3 := w2.emit Event.parent_comp_release
    match self.destructor w3 with
    | .ok _ w4 => .ok none w4
    | .abort a w4 => .abort a w4
  else
    .ok (some self) w2

/-- The member `queue_read_from_parent(image_extents)`. -/
def CopyupRequest.queue_read_from_parent (_self : CopyupRequest)
    (image_extents : List (Nat × Nat)) (w : World) : World :=
  w.emit (Event.finisher_queue image_extents)

/-- The callback `read_from_parent_cb(cb, arg)`: `req` is `arg`,
`return_value` is `comp->get_return_value()`. -/
def read_from_parent_cb (req : CopyupRequest) (return_value : Int) (w : World) :
    Result Unit :=
  let (req1, w1) := req.complete_all return_value w
  let w2 := if req1.m_send_copyup then req1.send_copyup return_value w1 else w1
  let w3 := copyup_list_lock_Lock w2
  match req1.destructor w3 with
  | .ok _ w4 => .ok () (copyup_list_lock_Unlock w4)
  | .abort a w4 => .abort a w4

/-! ## Observations on the effect trace -/

/-- Recognises the completion of a pending request. -/
def Event.isComplete : Event → Bool
  | .complete _ _ => true
  | _ => false

/-- Recognises a persist operation: the copyup write `aio_operate`. -/
def Event.isPersist : Event → Bool
  | .aio_operate _ _ _ _ => true
  | _ => false

/-- Recognises a parent fetch: the call of `aio_read`. -/
def Event.isFetch : Event → Bool
  | .aio_read _ => true
  | _ => false

/-- Recognises the acquisition of the registry lock and the removal of a
registry entry. -/
def Event.isRegistryStep : Event → Bool
  | .copyup_list_lock_Lock => true
  | .copyup_list_erase _ => true
  | _ => false

/-- The number of persist operations in a trace. -/
def persist_count (t : List Event) : Nat :=
  (t.filter Event.isPersist).length

/-- The number of parent fetches in a trace. -/
def fetch_count (t : List Event) : Nat :=
  (t.filter Event.isFetch).length

/-- The number of times the empty-condition is signalled in a trace. -/
def signal_count (t : List Event) : Nat :=
  t.count Event.copyup_list_cond_Signal

/-! ## The callers of the registry

The code that looks a request up in `copyup_list`, creates it or joins it,
and the completion mechanism that fires `read_from_parent_cb`, are in other
files of the repository. They are modelled from the specification. The
`CopyupRequest` objects alive are kept in a heap indexed by address. -/

/-- Modelled from the spec: the registry holds a "CopyupRequest pointer" per
object; the live `CopyupRequest` objects these pointers refer to, by address
(the code that dereferences them is not in this file). -/
abbrev Heap := List (Nat × CopyupRequest)

/-- Modelled from the spec: dereferences a `CopyupRequest` pointer; `none`
when no live object is at the address. -/
def heap_deref : Heap → Nat → Option CopyupRequest
  | [], _ => none
  | (a, req) :: rest, p => if a = p then some req else heap_deref rest p

/-- Modelled from the spec: the object at the address is gone after its
`delete`. -/
def heap_free (h : Heap) (p : Nat) : Heap :=
  h.filter (fun e => e.1 ≠ p)

/-- Modelled from the spec: the object at the address after `new` or after a
member function has changed it. -/
def heap_store (h : Heap) (p : Nat) (req : CopyupRequest) : Heap :=
  (p, req) :: heap_free h p

/-- Modelled from the spec: one caller that needs copy-up of an object (the
callers are not in this file): its I/O handle, and what it uses when it is the
one that creates the request: the address `new` returns, the write-back flag,
the extents to read and the value its `aio_read` returns. -/
structure Caller where
  handle : Nat
  address : Nat
  send_copyup : Bool
  image_extents : List (Nat × Nat)
  aio_read_ret : Int
  deriving DecidableEq, Repr

/-- Modelled from the spec: `insert(object_id, request)` of the Slot Registry,
called by the creator of a request (its code is not in this file), for a key
that `find` has not found. The code in this file uses only `find`, `erase`,
`empty` and `size` of the map, so the position of the new entry is
immaterial. -/
def map_insert (m : List (Nat × Nat)) (k : Nat) (p : Nat) : List (Nat × Nat) :=
  (k, p) :: m

/-- Modelled from the spec: the join-or-create step of a caller (the
request-dispatch layer, not in this file). Spec, section 2: "caller, Slot
Registry lookup, either join existing CopyupRequest (append to its Pending
Request Queue) or create new CopyupRequest + insert into registry,
CopyupRequest dispatches parent read"; section 5: the decision and the append
are one critical section under the registry lock; section 8: the creator is
queued on the request as well. The result is `none` when the registry points
to an address without a live object. -/
def request_copyup (c : Caller) (oid : String) (object_no : Nat) (h : Heap)
    (w : World) : Option (Result Heap) :=
  let w1 := copyup_list_lock_Lock w
  match map_lookup w1.ictx.copyup_list object_no with
  | some p =>
    match heap_deref h p with
    | some req =>
      some (.ok (heap_store h p (req.append_request c.handle))
        (copyup_list_lock_Unlock w1))
    | none => none
  | none =>
    let req := (CopyupRequest.new oid object_no c.send_copyup).append_request c.handle
    let w2 : World :=
      { w1 with ictx := { w1.ictx with
          copyup_list := map_insert w1.ictx.copyup_list object_no c.address } }
    let w3 := copyup_list_lock_Unlock w2
    match req.read_from_parent c.aio_read_ret c.image_extents w3 with
    | .ok (some req1) w4 => some (.ok (heap_store h c.address req1) w4)
    | .ok none w4 => some (.ok h w4)
    | .abort a w4 => some (.abort a w4)

/-- Modelled from the spec: the callers of one object take their
join-or-create steps one after the other, in the order of the list (the
registry lock serialises them); a step that aborts ends the run. -/
def request_copyup_all : List Caller → String → Nat → Heap → World →
    Option (Result Heap)
  | [], _, _, h, w => some (.ok h w)
  | c :: cs, oid, object_no, h, w =>
    match request_copyup c oid object_no h w with
    | some (.ok h1 w1) => request_copyup_all cs oid object_no h1 w1
    | other => other

/-- Modelled from the spec: the asynchronous completion of the parent read of
the request at address `p` (the completion mechanism is not in this file):
"the registered read callback fires with a completion status and the fetched
bytes are now resident in the Parent Data Buffer"; the callback is
`read_from_parent_cb`, which deletes the request. -/
def fetch_complete (p : Nat) (status : Int) (data : List Nat) (h : Heap) (w : World) :
    Option (Result Heap) :=
  match heap_deref h p with
  | none => none
  | some req =>
    match read_from_parent_cb { req with m_copyup_data := data } status w with
    | .ok _ w1 => some (.ok (heap_free h p) w1)
    | .abort a w1 => some (.abort a w1)

/-! ## Basic facts -/

theorem complete_all_loop_fst (q : List Nat) (r : Int) (w : World) :
    (complete_all_loop q r w).1 = [] := by
  induction q generalizing w with
  | nil => rfl
  | cons a q ih => simpa [complete_all_loop] using ih _

theorem complete_all_loop_trace (q : List Nat) (r : Int) (w : World) :
    (complete_all_loop q r w).2.trace
      = w.trace ++ q.map (fun a => Event.complete a r) := by
  induction q generalizing w with
  | nil => simp [complete_all_loop]
  | cons a q ih => simp [complete_all_loop, ih, World.emit]

theorem complete_all_loop_ictx (q : List Nat) (r : Int) (w : World) :
    (complete_all_loop q r w).2.ictx = w.ictx := by
  induction q generalizing w with
  | nil => rfl
  | cons a q ih => simp [complete_all_loop, ih, World.emit]

theorem foldl_append_request (as : List Nat) (req : CopyupRequest) :
    as.foldl CopyupRequest.append_request req
      = { req with m_pending_requests := req.m_pending_requests ++ as } := by
  induction as generalizing req with
  | nil => simp
  | cons a as ih => simp [ih, CopyupRequest.append_request]

theorem complete_all_pending (req : CopyupRequest) (r : Int) (w : World) :
    (req.complete_all r w).1 = { req with m_pending_requests := [] } := by
  simp [CopyupRequest.complete_all, complete_all_loop_fst]

theorem complete_all_trace (req : CopyupRequest) (r : Int) (w : World) :
    (req.complete_all r w).2.trace
      = w.trace ++ req.m_pending_requests.map (fun a => Event.complete a r) := by
  simp [CopyupRequest.complete_all, complete_all_loop_trace]

theorem complete_all_ictx (req : CopyupRequest) (r : Int) (w : World) :
    (req.complete_all r w).2.ictx = w.ictx := by
  simp [CopyupRequest.complete_all, complete_all_loop_ictx]

theorem send_copyup_trace (req : CopyupRequest) (r : Int) (w : World) :
    (req.send_copyup r w).trace
      = w.trace ++ [Event.snap_lock_get_read, Event.snap_lock_put_read,
          Event.aio_operate req.m_oid
            [{ cls := "rbd", method := "copyup", inbl := req.m_copyup_data }]
            w.ictx.snapc.seq w.ictx.snapc.snaps,
          Event.rados_comp_release] := by
  simp [CopyupRequest.send_copyup, World.emit, vector_insert_end]

theorem send_copyup_ictx (req : CopyupRequest) (r : Int) (w : World) :
    (req.send_copyup r w).ictx = w.ictx := by
  simp [CopyupRequest.send_copyup, World.emit]

/-- The effects of the destructor, by the position `find` returns. -/
theorem destructor_trace (req : CopyupRequest) (w : World) :
    (req.destructor w).world.trace = w.trace ∨
    ∃ it, map_find w.ictx.copyup_list req.m_object_no = some it ∧
      (req.destructor w).world.trace
        = w.trace ++ Event.copyup_list_erase req.m_object_no ::
            (if (map_erase w.ictx.copyup_list it).isEmpty
              then [Event.copyup_list_cond_Signal] else []) := by
  unfold CopyupRequest.destructor
  split
  · left; rfl
  · split
    · left; rfl
    · split
      · left; rfl
      · rename_i it hit
        right
        refine ⟨it, hit, ?_⟩
        by_cases h : (map_erase w.ictx.copyup_list it).isEmpty = true
        · simp [h, Result.world, World.emit]
        · simp [h, Result.world]

/-- The world in which `read_from_parent_cb` takes the registry lock. -/
theorem read_from_parent_cb_eq (req : CopyupRequest) (r : Int) (w : World) :
    read_from_parent_cb req r w =
      match ({ req with m_pending_requests := [] } : CopyupRequest).destructor
          (copyup_list_lock_Lock
            (if req.m_send_copyup then
              ({ req with m_pending_requests := [] } : CopyupRequest).send_copyup r
                (req.complete_all r w).2
            else (req.complete_all r w).2)) with
      | .ok _ w4 => .ok () (copyup_list_lock_Unlock w4)
      | .abort a w4 => .abort a w4 := by
  simp only [read_from_parent_cb, complete_all_pending]

theorem destructor_locked_empty (req : CopyupRequest) (w : World)
    (hl : w.ictx.copyup_list_lock = true) (hq : req.m_pending_requests = []) :
    req.destructor w =
      match map_find w.ictx.copyup_list req.m_object_no with
      | none => .abort .slot_found w
      | some it =>
        if (map_erase w.ictx.copyup_list it).isEmpty then
          .ok () { ictx := { w.ictx with copyup_list := map_erase w.ictx.copyup_list it },
                   trace := w.trace ++ [Event.copyup_list_erase req.m_object_no,
                     Event.copyup_list_cond_Signal] }
        else
          .ok () { ictx := { w.ictx with copyup_list := map_erase w.ictx.copyup_list it },
                   trace := w.trace ++ [Event.copyup_list_erase req.m_object_no] } := by
  unfold CopyupRequest.destructor
  simp only [hl, hq, List.isEmpty_nil, Bool.true_eq_false, if_false]
  split <;> simp [World.emit]

/-- The effect trace of `read_from_parent_cb` in closed form. -/
theorem read_from_parent_cb_trace (req : CopyupRequest) (r : Int) (w : World) :
    (read_from_parent_cb req r w).world.trace =
      w.trace ++ req.m_pending_requests.map (fun a => Event.complete a r)
        ++ (if req.m_send_copyup then
              [Event.snap_lock_get_read, Event.snap_lock_put_read,
                Event.aio_operate req.m_oid
                  [{ cls := "rbd", method := "copyup", inbl := req.m_copyup_data }]
                  w.ictx.snapc.seq w.ictx.snapc.snaps,
                Event.rados_comp_release]
            else [])
        ++ [Event.copyup_list_lock_Lock]
        ++ (match map_find w.ictx.copyup_list req.m_object_no with
            | none => []
            | some it =>
              Event.copyup_list_erase req.m_object_no ::
                ((if (map_erase w.ictx.copyup_list it).isEmpty
                    then [Event.copyup_list_cond_Signal] else [])
                  ++ [Event.copyup_list_lock_Unlock])) := by
  rw [read_from_parent_cb_eq]
  rw [destructor_locked_empty _ _ (by simp [copyup_list_lock_Lock]) rfl]
  cases hs : req.m_send_copyup <;>
    simp only [copyup_list_lock_Lock, send_copyup_ictx, complete_all_ictx, if_true,
      Bool.false_eq_true, if_false] <;>
    rcases hf : map_find w.ictx.copyup_list req.m_object_no with _ | it <;>
    simp only [] <;>
    (try by_cases he : (map_erase w.ictx.copyup_list it).isEmpty = true) <;>
    simp [Result.world, copyup_list_lock_Unlock, send_copyup_trace, complete_all_trace,
      complete_all_ictx, *]

/-! ## Facts about the registry map -/

theorem map_find_cons_some (k1 v : Nat) (rest : List (Nat × Nat)) (k it : Nat)
    (h : map_find ((k1, v) :: rest) k = some it) :
    (k1 = k ∧ it = 0) ∨ (k1 ≠ k ∧ ∃ j, map_find rest k = some j ∧ it = j + 1) := by
  unfold map_find at h
  by_cases hk : k1 = k
  · left
    simp [hk] at h
    exact ⟨hk, h.symm⟩
  · right
    simp only [hk, if_false] at h
    cases hj : map_find rest k with
    | none => simp [hj] at h
    | some j =>
      simp [hj] at h
      exact ⟨hk, j, rfl, h.symm⟩

theorem map_find_none_iff (m : List (Nat × Nat)) (k : Nat) :
    map_find m k = none ↔ k ∉ m.map Prod.fst := by
  induction m with
  | nil => simp [map_find]
  | cons e rest ih =>
    obtain ⟨k1, v⟩ := e
    by_cases hk : k1 = k
    · simp [map_find, hk]
    · have hk2 : ¬ k = k1 := fun h => hk h.symm
      simp [map_find, hk, hk2, ih]

theorem map_lookup_cons (k1 v : Nat) (rest : List (Nat × Nat)) (k : Nat) :
    map_lookup ((k1, v) :: rest) k = if k1 = k then some v else map_lookup rest k := by
  unfold map_lookup
  by_cases hk : k1 = k
  · simp [map_find, hk]
  · cases hj : map_find rest k <;> simp [map_find, hk, hj]

theorem map_lookup_none_iff (m : List (Nat × Nat)) (k : Nat) :
    map_lookup m k = none ↔ map_find m k = none := by
  induction m with
  | nil => simp [map_lookup, map_find]
  | cons e rest ih =>
    obtain ⟨k1, v⟩ := e
    rw [map_lookup_cons]
    by_cases hk : k1 = k
    · simp [map_find, hk]
    · simp [map_find, hk, ih]

theorem map_erase_length (m : List (Nat × Nat)) (k it : Nat)
    (h : map_find m k = some it) : (map_erase m it).length + 1 = m.length := by
  induction m generalizing it with
  | nil => simp [map_find] at h
  | cons e rest ih =>
    obtain ⟨k1, v⟩ := e
    rcases map_find_cons_some k1 v rest k it h with ⟨_, rfl⟩ | ⟨_, j, hj, rfl⟩
    · simp [map_erase]
    · have := ih j hj
      simp only [map_erase] at this
      simp [map_erase, this]

theorem map_erase_lookup_ne (m : List (Nat × Nat)) (k it : Nat)
    (h : map_find m k = some it) (k2 : Nat) (hne : k2 ≠ k) :
    map_lookup (map_erase m it) k2 = map_lookup m k2 := by
  induction m generalizing it with
  | nil => simp [map_find] at h
  | cons e rest ih =>
    obtain ⟨k1, v⟩ := e
    rcases map_find_cons_some k1 v rest k it h with ⟨hk, rfl⟩ | ⟨_, j, hj, rfl⟩
    · have : ¬ k1 = k2 := fun h2 => hne (h2.symm.trans hk)
      simp [map_erase, map_lookup_cons, this]
    · have := ih j hj
      simp only [map_erase] at this
      simp [map_erase, map_lookup_cons, this]

theorem map_erase_find_self (m : List (Nat × Nat)) (k it : Nat)
    (h : map_find m k = some it) (hwf : map_wf m) :
    map_find (map_erase m it) k = none := by
  induction m generalizing it with
  | nil => simp [map_find] at h
  | cons e rest ih =>
    obtain ⟨k1, v⟩ := e
    have hwf2 : k1 ∉ rest.map Prod.fst ∧ map_wf rest := by
      simpa [map_wf] using hwf
    rcases map_find_cons_some k1 v rest k it h with ⟨hk, rfl⟩ | ⟨hk, j, hj, rfl⟩
    · subst hk
      simpa [map_erase] using (map_find_none_iff rest k1).2 hwf2.1
    · have := ih j hj hwf2.2
      simp only [map_erase] at this
      simp [map_erase, map_find, hk, this]

theorem map_find_isSome_of_mem (m : List (Nat × Nat)) (k : Nat)
    (h : k ∈ m.map Prod.fst) : ∃ it, map_find m k = some it := by
  cases hf : map_find m k with
  | none => exact absurd h ((map_find_none_iff m k).1 hf)
  | some it => exact ⟨it, rfl⟩

/-! ## Facts about counting effects -/

theorem persist_count_append (t1 t2 : List Event) :
    persist_count (t1 ++ t2) = persist_count t1 + persist_count t2 := by
  simp [persist_count]

theorem persist_count_completes (q : List Nat) (r : Int) :
    persist_count (q.map (fun a => Event.complete a r)) = 0 := by
  induction q with
  | nil => rfl
  | cons a q ih =>
    simp [persist_count, Event.isPersist]

theorem destructor_tail_no_complete (m : List (Nat × Nat)) (k : Nat) :
    ∀ e ∈ (match map_find m k with
            | none => []
            | some it =>
              Event.copyup_list_erase k ::
                ((if (map_erase m it).isEmpty
                    then [Event.copyup_list_cond_Signal] else [])
                  ++ [Event.copyup_list_lock_Unlock])),
      e.isComplete = false ∧ e.isPersist = false ∧ e.isFetch = false := by
  intro e he
  cases hf : map_find m k with
  | none => simp [hf] at he
  | some it =>
    simp only [hf] at he
    by_cases hemp : (map_erase m it).isEmpty = true
    · simp [hemp] at he
      rcases he with rfl | rfl | rfl <;> exact ⟨rfl, rfl, rfl⟩
    · simp [hemp] at he
      rcases he with rfl | rfl <;> exact ⟨rfl, rfl, rfl⟩

/-- The effects of `read_from_parent_cb` after the completions of the pending
requests hold no completion and no fetch. -/
theorem read_from_parent_cb_rest (req : CopyupRequest) (r : Int) (w : World) :
    ∃ rest, (read_from_parent_cb req r w).world.trace
        = w.trace ++ req.m_pending_requests.map (fun a => Event.complete a r) ++ rest
      ∧ ∀ e ∈ rest, e.isComplete = false ∧ e.isFetch = false := by
  refine ⟨(if req.m_send_copyup then
        [Event.snap_lock_get_read, Event.snap_lock_put_read,
          Event.aio_operate req.m_oid
            [{ cls := "rbd", method := "copyup", inbl := req.m_copyup_data }]
            w.ictx.snapc.seq w.ictx.snapc.snaps,
          Event.rados_comp_release]
      else []) ++ [Event.copyup_list_lock_Lock] ++
      (match map_find w.ictx.copyup_list req.m_object_no with
        | none => []
        | some it =>
          Event.copyup_list_erase req.m_object_no ::
            ((if (map_erase w.ictx.copyup_list it).isEmpty
                then [Event.copyup_list_cond_Signal] else [])
              ++ [Event.copyup_list_lock_Unlock])), ?_, ?_⟩
  · rw [read_from_parent_cb_trace]
    simp only [List.append_assoc]
  · intro e he
    have htail := destructor_tail_no_complete w.ictx.copyup_list req.m_object_no
    rcases List.mem_append.1 he with he | he
    · rcases List.mem_append.1 he with he | he
      · cases hs : req.m_send_copyup <;> simp [hs] at he
        rcases he with rfl | rfl | rfl | rfl <;> exact ⟨rfl, rfl⟩
      · simp at he
        subst he
        exact ⟨rfl, rfl⟩
    · exact ⟨(htail e he).1, (htail e he).2.2⟩

/-! ## The claims -/

/-- C1: when requests `as` are added with `append_request`, in that order, to
a request whose pending vector holds `req0.m_pending_requests` (empty for a
newly constructed request), `complete_all r` empties the pending vector and
adds to the effect trace exactly one `complete(r)` per pending request, in
the order in which they were appended and all with the status `r`, and
changes nothing else; `read_from_parent_cb` with return value `r` starts with
exactly these completions and completes no request after them. -/
theorem complete_all_fifo (req0 : CopyupRequest) (as : List Nat) (r : Int) (w : World) :
    ((as.foldl CopyupRequest.append_request req0).complete_all r w).1.m_pending_requests = []
    ∧ ((as.foldl CopyupRequest.append_request req0).complete_all r w).2.trace
        = w.trace ++ (req0.m_pending_requests ++ as).map (fun a => Event.complete a r)
    ∧ ((as.foldl CopyupRequest.append_request req0).complete_all r w).2.ictx = w.ictx
    ∧ ((as.foldl CopyupRequest.append_request (CopyupRequest.new req0.m_oid
          req0.m_object_no req0.m_send_copyup)).complete_all r w).2.trace
        = w.trace ++ as.map (fun a => Event.complete a r)
    ∧ ∃ rest,
        (read_from_parent_cb (as.foldl CopyupRequest.append_request req0) r w).world.trace
          = w.trace ++ (req0.m_pending_requests ++ as).map (fun a => Event.complete a r)
              ++ rest
        ∧ ∀ e ∈ rest, e.isComplete = false := by
  refine ⟨?_, ?_, ?_, ?_, ?_⟩
  · simp [complete_all_pending]
  · simp [complete_all_trace, foldl_append_request]
  · simp [complete_all_ictx]
  · simp [complete_all_trace, foldl_append_request, CopyupRequest.new]
  · obtain ⟨rest, h1, h2⟩ :=
      read_from_parent_cb_rest (as.foldl CopyupRequest.append_request req0) r w
    refine ⟨rest, ?_, fun e he => (h2 e he).1⟩
    rw [h1]
    simp [foldl_append_request]

/-- The number of persist operations `read_from_parent_cb` issues, by the
member `m_send_copyup` of the request. -/
theorem read_from_parent_cb_persist_of_member (req : CopyupRequest) (r : Int) (w : World) :
    persist_count (read_from_parent_cb req r w).world.trace
      = persist_count w.trace + (if req.m_send_copyup then 1 else 0) := by
  rw [read_from_parent_cb_trace]
  have htail := destructor_tail_no_complete w.ictx.copyup_list req.m_object_no
  have h0 : persist_count (match map_find w.ictx.copyup_list req.m_object_no with
            | none => []
            | some it =>
              Event.copyup_list_erase req.m_object_no ::
                ((if (map_erase w.ictx.copyup_list it).isEmpty
                    then [Event.copyup_list_cond_Signal] else [])
                  ++ [Event.copyup_list_lock_Unlock])) = 0 := by
    unfold persist_count
    rw [List.length_eq_zero, List.filter_eq_nil_iff]
    intro e he
    simp [(htail e he).2.1]
  rw [persist_count_append, persist_count_append, persist_count_append,
    persist_count_append, h0, persist_count_completes]
  cases req.m_send_copyup <;> simp [persist_count, Event.isPersist]

/-- The request on which the fetch callback runs: constructed with
`CopyupRequest.new`, joined by the requests `as` through `append_request`,
its buffer filled with `data` by the parent read. The flag is the one the
constructor was given. -/
theorem constructed_request_eq (oid : String) (objectno : Nat) (send_copyup : Bool)
    (as : List Nat) (data : List Nat) :
    ({ as.foldl CopyupRequest.append_request (CopyupRequest.new oid objectno send_copyup)
        with m_copyup_data := data } : CopyupRequest)
      = { m_oid := oid, m_object_no := objectno, m_send_copyup := send_copyup,
          m_copyup_data := data, m_pending_requests := as } := by
  simp [foldl_append_request, CopyupRequest.new]

/-- C2: take a request constructed by `CopyupRequest(ictx, oid, objectno,
send_copyup)`, any requests `as` queued on it with `append_request`, any bytes
`data` in its buffer, any fetch status and any world. `read_from_parent_cb`
on it issues no persist operation (`aio_operate`) when it was constructed
with `send_copyup = false`, exactly one when it was constructed with
`send_copyup = true`, and the same number for any two fetch statuses. -/
theorem read_from_parent_cb_persist_count (oid : String) (objectno : Nat)
    (as : List Nat) (data : List Nat) (r : Int) (w : World) :
    persist_count (read_from_parent_cb
        { as.foldl CopyupRequest.append_request (CopyupRequest.new oid objectno false)
          with m_copyup_data := data } r w).world.trace
      = persist_count w.trace
    ∧ persist_count (read_from_parent_cb
        { as.foldl CopyupRequest.append_request (CopyupRequest.new oid objectno true)
          with m_copyup_data := data } r w).world.trace
      = persist_count w.trace + 1
    ∧ ∀ (send_copyup : Bool) (r2 : Int),
        persist_count (read_from_parent_cb
            { as.foldl CopyupRequest.append_request
                (CopyupRequest.new oid objectno send_copyup)
              with m_copyup_data := data } r w).world.trace
          = persist_count (read_from_parent_cb
            { as.foldl CopyupRequest.append_request
                (CopyupRequest.new oid objectno send_copyup)
              with m_copyup_data := data } r2 w).world.trace := by
  refine ⟨?_, ?_, ?_⟩
  · rw [constructed_request_eq, read_from_parent_cb_persist_of_member]
    simp
  · rw [constructed_request_eq, read_from_parent_cb_persist_of_member]
    simp
  · intro send_copyup r2
    rw [read_from_parent_cb_persist_of_member, read_from_parent_cb_persist_of_member]

/-- C3: with the lock held, an empty pending queue and a registry (a map:
its keys are distinct) that has an entry for the object number of the
request, the destructor returns normally and removes exactly that entry:
`find` of the object number then returns `end()`, every other key maps to
the same request as before, and the size of the registry is one less. -/
theorem destructor_removes_own_entry (req : CopyupRequest) (w : World)
    (hl : w.ictx.copyup_list_lock = true) (hq : req.m_pending_requests = [])
    (hwf : map_wf w.ictx.copyup_list)
    (hk : req.m_object_no ∈ w.ictx.copyup_list.map Prod.fst) :
    ∃ w1, req.destructor w = .ok () w1
      ∧ map_find w1.ictx.copyup_list req.m_object_no = none
      ∧ map_lookup w1.ictx.copyup_list req.m_object_no = none
      ∧ (∀ k, k ≠ req.m_object_no →
          map_lookup w1.ictx.copyup_list k = map_lookup w.ictx.copyup_list k)
      ∧ w1.ictx.copyup_list.length + 1 = w.ictx.copyup_list.length := by
  obtain ⟨it, hit⟩ := map_find_isSome_of_mem _ _ hk
  have hself := map_erase_find_self _ _ _ hit hwf
  have hne := map_erase_lookup_ne _ _ _ hit
  have hlen := map_erase_length _ _ _ hit
  rw [destructor_locked_empty req w hl hq, hit]
  by_cases he : (map_erase w.ictx.copyup_list it).isEmpty = true
  · simp only [he, if_true]
    exact ⟨_, rfl, hself, (map_lookup_none_iff _ _).2 hself, hne, hlen⟩
  · simp only [he, if_false]
    exact ⟨_, rfl, hself, (map_lookup_none_iff _ _).2 hself, hne, hlen⟩

/-- Witness of C3: the request of object 42 in a registry with the objects
7 and 42. -/
theorem destructor_removes_own_entry_witness :
    ∃ w1, (CopyupRequest.new "rbd_data.1.2a" 42 true).destructor
        { ictx := { copyup_list := [(7, 1000), (42, 2000)], copyup_list_lock := true,
                    snap_lock := 0, snapc := { seq := 3, snaps := [3, 1] } },
          trace := [] } = .ok () w1
      ∧ map_find w1.ictx.copyup_list 42 = none
      ∧ map_lookup w1.ictx.copyup_list 42 = none
      ∧ (∀ k, k ≠ 42 →
          map_lookup w1.ictx.copyup_list k = map_lookup [(7, 1000), (42, 2000)] k)
      ∧ w1.ictx.copyup_list.length + 1 = 2 :=
  destructor_removes_own_entry (CopyupRequest.new "rbd_data.1.2a" 42 true)
    { ictx := { copyup_list := [(7, 1000), (42, 2000)], copyup_list_lock := true,
                snap_lock := 0, snapc := { seq := 3, snaps := [3, 1] } },
      trace := [] } rfl rfl (by decide) (by decide)

/-- C4: when the destructor runs (lock held, pending queue empty, entry
present), it signals the empty-condition exactly once if the registry is
empty after the erase and not at all otherwise; so destroying the request of
a registry with a single entry signals the condition, and destroying one of a
registry with two or more entries does not. -/
theorem destructor_signals_iff_empty (req : CopyupRequest) (w : World)
    (hl : w.ictx.copyup_list_lock = true) (hq : req.m_pending_requests = [])
    (hk : req.m_object_no ∈ w.ictx.copyup_list.map Prod.fst) :
    ∃ w1, req.destructor w = .ok () w1
      ∧ (signal_count w1.trace = signal_count w.trace + 1 ↔ w1.ictx.copyup_list = [])
      ∧ (signal_count w1.trace = signal_count w.trace ↔ w1.ictx.copyup_list ≠ [])
      ∧ (w.ictx.copyup_list.length = 1 → signal_count w1.trace = signal_count w.trace + 1)
      ∧ (2 ≤ w.ictx.copyup_list.length → signal_count w1.trace = signal_count w.trace) := by
  obtain ⟨it, hit⟩ := map_find_isSome_of_mem _ _ hk
  have hlen := map_erase_length _ _ _ hit
  rw [destructor_locked_empty req w hl hq, hit]
  by_cases he : (map_erase w.ictx.copyup_list it).isEmpty = true
  · simp only [he, if_true]
    have he2 : map_erase w.ictx.copyup_list it = [] := by simpa using he
    refine ⟨_, rfl, ?_, ?_, ?_, ?_⟩
    · simp [signal_count, he2]
    · simp [signal_count, he2]
    · intro _; simp [signal_count]
    · intro h2
      rw [he2] at hlen
      simp at hlen
      omega
  · simp only [he, if_false]
    have he2 : map_erase w.ictx.copyup_list it ≠ [] := by simpa using he
    refine ⟨_, rfl, ?_, ?_, ?_, ?_⟩
    · simp [signal_count, he2]
    · simp [signal_count, he2]
    · intro h1
      rw [h1] at hlen
      have : (map_erase w.ictx.copyup_list it).length = 0 := by omega
      exact absurd (List.length_eq_zero.1 this) he2
    · intro _; simp [signal_count]

/-- Witness of C4: the last registered request of an image signals the
condition; a request destroyed while object 7 is still registered does not. -/
theorem destructor_signals_iff_empty_witness :
    (∃ w1, (CopyupRequest.new "rbd_data.1.2a" 42 false).destructor
        { ictx := { copyup_list := [(42, 2000)], copyup_list_lock := true,
                    snap_lock := 0, snapc := { seq := 0, snaps := [] } },
          trace := [] } = .ok () w1
      ∧ signal_count w1.trace = 1)
    ∧ (∃ w1, (CopyupRequest.new "rbd_data.1.2a" 42 false).destructor
        { ictx := { copyup_list := [(7, 1000), (42, 2000)], copyup_list_lock := true,
                    snap_lock := 0, snapc := { seq := 0, snaps := [] } },
          trace := [] } = .ok () w1
      ∧ signal_count w1.trace = 0) := by
  constructor
  · obtain ⟨w1, h1, _, _, h4, _⟩ :=
      destructor_signals_iff_empty (CopyupRequest.new "rbd_data.1.2a" 42 false)
        { ictx := { copyup_list := [(42, 2000)], copyup_list_lock := true,
                    snap_lock := 0, snapc := { seq := 0, snaps := [] } },
          trace := [] } rfl rfl (by decide)
    exact ⟨w1, h1, h4 rfl⟩
  · obtain ⟨w1, h1, _, _, _, h5⟩ :=
      destructor_signals_iff_empty (CopyupRequest.new "rbd_data.1.2a" 42 false)
        { ictx := { copyup_list := [(7, 1000), (42, 2000)], copyup_list_lock := true,
                    snap_lock := 0, snapc := { seq := 0, snaps := [] } },
          trace := [] } rfl rfl (by decide)
    exact ⟨w1, h1, h5 (by decide)⟩

/-- C7: `send_copyup` issues one write; it goes to the object name of the
request, its operation is the `copyup` call of class `rbd` with the bytes of
the data buffer unchanged, and it carries the sequence number of the snapshot
context of the image and its snapshot ids, in the same order and number. The
snapshot lock is taken and released before the write is issued, and the image
context (the snapshot context and the readers of the snapshot lock) is the
same after the call as before. -/
theorem send_copyup_write (req : CopyupRequest) (r : Int) (w : World) :
    (req.send_copyup r w).trace
        = w.trace ++ [Event.snap_lock_get_read, Event.snap_lock_put_read,
            Event.aio_operate req.m_oid
              [{ cls := "rbd", method := "copyup", inbl := req.m_copyup_data }]
              w.ictx.snapc.seq w.ictx.snapc.snaps,
            Event.rados_comp_release]
    ∧ (req.send_copyup r w).ictx.snapc = w.ictx.snapc
    ∧ (req.send_copyup r w).ictx.snap_lock = w.ictx.snap_lock
    ∧ (req.send_copyup r w).ictx = w.ictx
    ∧ persist_count (req.send_copyup r w).trace = persist_count w.trace + 1 := by
  refine ⟨send_copyup_trace req r w, ?_, ?_, send_copyup_ictx req r w, ?_⟩
  · rw [send_copyup_ictx]
  · rw [send_copyup_ictx]
  · rw [send_copyup_trace, persist_count_append]
    simp [persist_count, Event.isPersist]

/-- C9: the effects of `read_from_parent_cb` come in three consecutive
parts: first the `complete(status)` calls of the pending requests, then the
persist write (present exactly when write-back is enabled), then the
registry part, which starts with the acquisition of the registry lock and
holds the removal of the entry. No request is completed after the first
part, no write is issued in the registry part, and neither the lock nor the
removal occurs before the registry part. -/
theorem read_from_parent_cb_order (req : CopyupRequest) (r : Int) (w : World) :
    ∃ completes persist registry,
      (read_from_parent_cb req r w).world.trace
        = w.trace ++ completes ++ persist ++ (Event.copyup_list_lock_Lock :: registry)
      ∧ completes = req.m_pending_requests.map (fun a => Event.complete a r)
      ∧ persist_count persist = (if req.m_send_copyup then 1 else 0)
      ∧ (∀ e ∈ completes, e.isPersist = false ∧ e.isRegistryStep = false)
      ∧ (∀ e ∈ persist, e.isComplete = false ∧ e.isRegistryStep = false)
      ∧ (∀ e ∈ Event.copyup_list_lock_Lock :: registry,
          e.isComplete = false ∧ e.isPersist = false)
      ∧ (Event.copyup_list_erase req.m_object_no ∈ registry
          ↔ req.m_object_no ∈ w.ictx.copyup_list.map Prod.fst) := by
  refine ⟨req.m_pending_requests.map (fun a => Event.complete a r),
    (if req.m_send_copyup then
        [Event.snap_lock_get_read, Event.snap_lock_put_read,
          Event.aio_operate req.m_oid
            [{ cls := "rbd", method := "copyup", inbl := req.m_copyup_data }]
            w.ictx.snapc.seq w.ictx.snapc.snaps,
          Event.rados_comp_release]
      else []),
    (match map_find w.ictx.copyup_list req.m_object_no with
      | none => []
      | some it =>
        Event.copyup_list_erase req.m_object_no ::
          ((if (map_erase w.ictx.copyup_list it).isEmpty
              then [Event.copyup_list_cond_Signal] else [])
            ++ [Event.copyup_list_lock_Unlock])),
    ?_, rfl, ?_, ?_, ?_, ?_, ?_⟩
  · rw [read_from_parent_cb_trace]
    simp only [List.append_assoc, List.singleton_append]
  · cases req.m_send_copyup <;> simp [persist_count, Event.isPersist]
  · intro e he
    simp only [List.mem_map] at he
    obtain ⟨a, _, rfl⟩ := he
    exact ⟨rfl, rfl⟩
  · intro e he
    cases hs : req.m_send_copyup <;> simp [hs] at he
    rcases he with rfl | rfl | rfl | rfl <;> exact ⟨rfl, rfl⟩
  · intro e he
    rcases List.mem_cons.1 he with rfl | he
    · exact ⟨rfl, rfl⟩
    · exact ⟨(destructor_tail_no_complete _ _ e he).1,
        (destructor_tail_no_complete _ _ e he).2.1⟩
  · constructor
    · intro hmem
      by_contra hk
      rw [(map_find_none_iff _ _).2 hk] at hmem
      simp at hmem
    · intro hk
      obtain ⟨it, hit⟩ := map_find_isSome_of_mem _ _ hk
      simp [hit]

/-- With its object number registered, `read_from_parent_cb` passes the
three assertions of the destructor. -/
theorem read_from_parent_cb_ok (req : CopyupRequest) (r : Int) (w : World)
    (hk : req.m_object_no ∈ w.ictx.copyup_list.map Prod.fst) :
    ∃ w1 it, read_from_parent_cb req r w = .ok () w1
      ∧ map_find w.ictx.copyup_list req.m_object_no = some it
      ∧ w1.ictx.copyup_list = map_erase w.ictx.copyup_list it
      ∧ w1.ictx.copyup_list_lock = false := by
  obtain ⟨it, hit⟩ := map_find_isSome_of_mem _ _ hk
  rw [read_from_parent_cb_eq]
  rw [destructor_locked_empty _ _ (by simp [copyup_list_lock_Lock]) rfl]
  have hictx : (copyup_list_lock_Lock
      (if req.m_send_copyup then
        ({ req with m_pending_requests := [] } : CopyupRequest).send_copyup r
          (req.complete_all r w).2
      else (req.complete_all r w).2)).ictx.copyup_list = w.ictx.copyup_list := by
    cases req.m_send_copyup <;>
      simp [copyup_list_lock_Lock, send_copyup_ictx, complete_all_ictx]
  simp only [hictx, hit]
  by_cases he : (map_erase w.ictx.copyup_list it).isEmpty = true
  · simp only [he, if_true]
    exact ⟨_, it, rfl, rfl, rfl, rfl⟩
  · simp only [he, if_false]
    exact ⟨_, it, rfl, rfl, rfl, rfl⟩

/-- C10: when the registry has an entry for the object number of the
request, `read_from_parent_cb` returns normally for every pending queue,
fetch status, write-back flag and starting state of the lock: none of the
three assertions of the destructor fails. The registry then has one entry
less, `find` of the object number returns `end()` (the keys of a map being
distinct), the other keys map to the same requests, and the lock has been
released again. -/
theorem read_from_parent_cb_asserts_pass (req : CopyupRequest) (r : Int) (w : World)
    (hk : req.m_object_no ∈ w.ictx.copyup_list.map Prod.fst) :
    ∃ w1, read_from_parent_cb req r w = .ok () w1
      ∧ w1.ictx.copyup_list.length + 1 = w.ictx.copyup_list.length
      ∧ (map_wf w.ictx.copyup_list → map_find w1.ictx.copyup_list req.m_object_no = none)
      ∧ (∀ k, k ≠ req.m_object_no →
          map_lookup w1.ictx.copyup_list k = map_lookup w.ictx.copyup_list k)
      ∧ w1.ictx.copyup_list_lock = false := by
  obtain ⟨w1, it, h1, hit, hm, hlock⟩ := read_from_parent_cb_ok req r w hk
  refine ⟨w1, h1, ?_, ?_, ?_, hlock⟩
  · rw [hm]; exact map_erase_length _ _ _ hit
  · intro hwf; rw [hm]; exact map_erase_find_self _ _ _ hit hwf
  · intro k hne; rw [hm]; exact map_erase_lookup_ne _ _ _ hit k hne

/-- Witness of C10: two pending requests, fetch status -5, write-back
enabled, objects 7 and 42 registered and the lock free at the start. -/
theorem read_from_parent_cb_asserts_pass_witness :
    ∃ w1, read_from_parent_cb
        { m_oid := "rbd_data.1.2a", m_object_no := 42, m_send_copyup := true,
          m_copyup_data := [1, 2, 3], m_pending_requests := [10, 11] } (-5)
        { ictx := { copyup_list := [(7, 1000), (42, 2000)], copyup_list_lock := false,
                    snap_lock := 0, snapc := { seq := 3, snaps := [3, 1] } },
          trace := [] } = .ok () w1
      ∧ w1.ictx.copyup_list.length = 1
      ∧ map_find w1.ictx.copyup_list 42 = none
      ∧ map_lookup w1.ictx.copyup_list 7 = some 1000 := by
  obtain ⟨w1, h1, h2, h3, h4, _⟩ := read_from_parent_cb_asserts_pass
    { m_oid := "rbd_data.1.2a", m_object_no := 42, m_send_copyup := true,
      m_copyup_data := [1, 2, 3], m_pending_requests := [10, 11] } (-5)
    { ictx := { copyup_list := [(7, 1000), (42, 2000)], copyup_list_lock := false,
                snap_lock := 0, snapc := { seq := 3, snaps := [3, 1] } },
      trace := [] } (by decide)
  refine ⟨w1, h1, ?_, h3 (by decide), ?_⟩
  · simpa using h2
  · rw [h4 7 (by decide)]; rfl

/-- On a negative return of `aio_read` the run of `read_from_parent` ends in
the world in which the destructor ends. -/
theorem read_from_parent_neg_world (req : CopyupRequest) (ret : Int)
    (ext : List (Nat × Nat)) (w : World) (hret : ret < 0) :
    (req.read_from_parent ret ext w).world
      = (req.destructor
          { ictx := w.ictx,
            trace := w.trace ++ [Event.aio_create_completion_internal,
              Event.aio_read ext, Event.parent_comp_release] }).world := by
  simp only [CopyupRequest.read_from_parent, hret, if_true, World.emit,
    List.append_assoc, List.singleton_append, List.cons_append, List.nil_append]
  split <;> simp_all [Result.world]

/-- On a negative return of `aio_read`, for every pending queue, lock state
and registry: the completion of the parent read is released, and neither a
completion of a pending request nor a persist operation follows. -/
theorem read_from_parent_failure_effects (req : CopyupRequest) (ret : Int)
    (ext : List (Nat × Nat)) (w : World) (hret : ret < 0) :
    ∃ rest, (req.read_from_parent ret ext w).world.trace
        = w.trace ++ [Event.aio_create_completion_internal, Event.aio_read ext,
            Event.parent_comp_release] ++ rest
      ∧ ∀ e ∈ rest, e.isComplete = false ∧ e.isPersist = false := by
  rw [read_from_parent_neg_world req ret ext w hret]
  rcases destructor_trace req
      { ictx := w.ictx,
        trace := w.trace ++ [Event.aio_create_completion_internal,
          Event.aio_read ext, Event.parent_comp_release] } with h | ⟨it, _, h⟩
  · exact ⟨[], by simpa using h, by simp⟩
  · refine ⟨_, h, ?_⟩
    intro e he
    by_cases hemp : (map_erase w.ictx.copyup_list it).isEmpty = true
    · simp [hemp] at he
      rcases he with rfl | rfl <;> exact ⟨rfl, rfl⟩
    · simp [hemp] at he
      subst he
      exact ⟨rfl, rfl⟩

/-- C5 fails on the code: object 42 is registered, request 10 is queued and
`aio_read` returns -5. The request is not destroyed and its registry entry is
not removed: with the lock free the run ends in the failure of
`assert(m_ictx->copyup_list_lock.is_locked())` of the destructor, with the
lock held in the failure of `assert(m_pending_requests.empty())`; in both
runs object 42 still maps to the request, after the completion has been
released and without any `complete()` or persist operation. -/
theorem read_from_parent_failure_queued_request_keeps_entry :
    (({ m_oid := "rbd_data.1.2a", m_object_no := 42, m_send_copyup := true,
        m_copyup_data := [], m_pending_requests := [10] } :
        CopyupRequest).read_from_parent (-5) [(0, 4096)]
        { ictx := { copyup_list := [(42, 2000)], copyup_list_lock := false,
                    snap_lock := 0, snapc := { seq := 3, snaps := [3, 1] } },
          trace := [] }
      = .abort .lock_is_locked
          { ictx := { copyup_list := [(42, 2000)], copyup_list_lock := false,
                      snap_lock := 0, snapc := { seq := 3, snaps := [3, 1] } },
            trace := [Event.aio_create_completion_internal,
              Event.aio_read [(0, 4096)], Event.parent_comp_release] })
    ∧ map_lookup
        (({ m_oid := "rbd_data.1.2a", m_object_no := 42, m_send_copyup := true,
            m_copyup_data := [], m_pending_requests := [10] } :
            CopyupRequest).read_from_parent (-5) [(0, 4096)]
          { ictx := { copyup_list := [(42, 2000)], copyup_list_lock := false,
                      snap_lock := 0, snapc := { seq := 3, snaps := [3, 1] } },
            trace := [] }).world.ictx.copyup_list 42 = some 2000
    ∧ (({ m_oid := "rbd_data.1.2a", m_object_no := 42, m_send_copyup := true,
          m_copyup_data := [], m_pending_requests := [10] } :
          CopyupRequest).read_from_parent (-5) [(0, 4096)]
        { ictx := { copyup_list := [(42, 2000)], copyup_list_lock := true,
                    snap_lock := 0, snapc := { seq := 3, snaps := [3, 1] } },
          trace := [] }
      = .abort .pending_requests_empty
          { ictx := { copyup_list := [(42, 2000)], copyup_list_lock := true,
                      snap_lock := 0, snapc := { seq := 3, snaps := [3, 1] } },
            trace := [Event.aio_create_completion_internal,
              Event.aio_read [(0, 4096)], Event.parent_comp_release] })
    ∧ map_lookup
        (({ m_oid := "rbd_data.1.2a", m_object_no := 42, m_send_copyup := true,
            m_copyup_data := [], m_pending_requests := [10] } :
            CopyupRequest).read_from_parent (-5) [(0, 4096)]
          { ictx := { copyup_list := [(42, 2000)], copyup_list_lock := true,
                      snap_lock := 0, snapc := { seq := 3, snaps := [3, 1] } },
            trace := [] }).world.ictx.copyup_list 42 = some 2000 := by
  refine ⟨?_, ?_, ?_, ?_⟩ <;> rfl

/-- C6 fails on the dispatch-failure branch of `read_from_parent`: with one
request queued and the lock free, the destructor is entered with the lock not
held, and `assert(m_ictx->copyup_list_lock.is_locked())` fails; with the lock
held, it is entered with the queue not empty, and
`assert(m_pending_requests.empty())` fails. In both runs no lock has been
taken and no request has been completed before the destructor is entered. -/
theorem read_from_parent_failure_violates_destructor_precondition :
    ({ m_oid := "rbd_data.1.2a", m_object_no := 42, m_send_copyup := false,
       m_copyup_data := [], m_pending_requests := [10] } : CopyupRequest).read_from_parent
        (-5) [(0, 4096)]
        { ictx := { copyup_list := [(42, 2000)], copyup_list_lock := false,
                    snap_lock := 0, snapc := { seq := 0, snaps := [] } },
          trace := [] }
      = .abort .lock_is_locked
          { ictx := { copyup_list := [(42, 2000)], copyup_list_lock := false,
                      snap_lock := 0, snapc := { seq := 0, snaps := [] } },
            trace := [Event.aio_create_completion_internal,
              Event.aio_read [(0, 4096)], Event.parent_comp_release] }
    ∧ ({ m_oid := "rbd_data.1.2a", m_object_no := 42, m_send_copyup := false,
         m_copyup_data := [], m_pending_requests := [10] } : CopyupRequest).read_from_parent
        (-5) [(0, 4096)]
        { ictx := { copyup_list := [(42, 2000)], copyup_list_lock := true,
                    snap_lock := 0, snapc := { seq := 0, snaps := [] } },
          trace := [] }
      = .abort .pending_requests_empty
          { ictx := { copyup_list := [(42, 2000)], copyup_list_lock := true,
                      snap_lock := 0, snapc := { seq := 0, snaps := [] } },
            trace := [Event.aio_create_completion_internal,
              Event.aio_read [(0, 4096)], Event.parent_comp_release] } := by
  constructor <;> rfl

/-! ## Single flight -/

theorem heap_deref_store (h : Heap) (p : Nat) (req : CopyupRequest) :
    heap_deref (heap_store h p req) p = some req := by
  simp [heap_store, heap_deref]

theorem fetch_count_append (t1 t2 : List Event) :
    fetch_count (t1 ++ t2) = fetch_count t1 + fetch_count t2 := by
  simp [fetch_count]

/-- A caller that finds the request of its object registered joins it: its
handle is appended to the pending queue, the registry is unchanged and no
fetch is issued. -/
theorem request_copyup_join (c : Caller) (oid : String) (o p : Nat)
    (req : CopyupRequest) (h : Heap) (w : World)
    (hl : map_lookup w.ictx.copyup_list o = some p) (hd : heap_deref h p = some req) :
    ∃ h1 w1, request_copyup c oid o h w = some (.ok h1 w1)
      ∧ w1.ictx.copyup_list = w.ictx.copyup_list
      ∧ heap_deref h1 p = some (req.append_request c.handle)
      ∧ fetch_count w1.trace = fetch_count w.trace := by
  refine ⟨heap_store h p (req.append_request c.handle),
    copyup_list_lock_Unlock (copyup_list_lock_Lock w), ?_, rfl, heap_deref_store _ _ _, ?_⟩
  · simp [request_copyup, copyup_list_lock_Lock, hl, hd]
  · simp [copyup_list_lock_Unlock, copyup_list_lock_Lock, fetch_count, Event.isFetch]

theorem request_copyup_all_join (cs : List Caller) (oid : String) (o p : Nat)
    (req : CopyupRequest) (h : Heap) (w : World)
    (hl : map_lookup w.ictx.copyup_list o = some p) (hd : heap_deref h p = some req) :
    ∃ h1 w1, request_copyup_all cs oid o h w = some (.ok h1 w1)
      ∧ w1.ictx.copyup_list = w.ictx.copyup_list
      ∧ heap_deref h1 p
          = some { req with
              m_pending_requests := req.m_pending_requests ++ cs.map Caller.handle }
      ∧ fetch_count w1.trace = fetch_count w.trace := by
  induction cs generalizing req h w with
  | nil => exact ⟨h, w, rfl, rfl, by simpa using hd, rfl⟩
  | cons c cs ih =>
    obtain ⟨h1, w1, hstep, hreg, hheap, hfetch⟩ := request_copyup_join c oid o p req h w hl hd
    obtain ⟨h2, w2, hrun, hreg2, hheap2, hfetch2⟩ :=
      ih (req.append_request c.handle) h1 w1 (by rw [hreg]; exact hl) hheap
    refine ⟨h2, w2, ?_, hreg2.trans hreg, ?_, hfetch2.trans hfetch⟩
    · simp only [request_copyup_all, hstep]
      exact hrun
    · rw [hheap2]
      simp [CopyupRequest.append_request]

/-- The caller that does not find the request of its object creates it,
registers it, queues its handle on it and issues the one fetch. -/
theorem request_copyup_create (c : Caller) (oid : String) (o : Nat) (h : Heap) (w : World)
    (hnew : map_find w.ictx.copyup_list o = none) (hret : 0 ≤ c.aio_read_ret) :
    ∃ h1 w1, request_copyup c oid o h w = some (.ok h1 w1)
      ∧ map_lookup w1.ictx.copyup_list o = some c.address
      ∧ heap_deref h1 c.address
          = some ((CopyupRequest.new oid o c.send_copyup).append_request c.handle)
      ∧ fetch_count w1.trace = fetch_count w.trace + 1 := by
  have hlook : map_lookup w.ictx.copyup_list o = none := (map_lookup_none_iff _ _).2 hnew
  have hneg : ¬ c.aio_read_ret < 0 := not_lt.2 hret
  refine ⟨heap_store h c.address
      ((CopyupRequest.new oid o c.send_copyup).append_request c.handle),
    { ictx := { w.ictx with
        copyup_list := map_insert w.ictx.copyup_list o c.address,
        copyup_list_lock := false },
      trace := w.trace ++ [Event.copyup_list_lock_Lock, Event.copyup_list_lock_Unlock,
        Event.aio_create_completion_internal, Event.aio_read c.image_extents] },
    ?_, ?_, heap_deref_store _ _ _, ?_⟩
  · simp [request_copyup, copyup_list_lock_Lock, hlook,
      CopyupRequest.read_from_parent, hneg, World.emit, copyup_list_lock_Unlock]
  · simp [map_insert, map_lookup_cons]
  · simp [fetch_count, Event.isFetch]

/-- Single flight when the fetch is dispatched: callers `c :: cs` (N of
them, in whatever order the registry lock lets them in) request copy-up of
the same object, which has no request registered at the start, and the
`aio_read` of the first does not fail; all of them take their step before
the fetch completes. Then exactly one parent fetch is issued, and when the
fetch completes with `status` every one of the N handles receives
`complete(status)`, once, with that same status; no other fetch is issued. -/
theorem single_flight (c : Caller) (cs : List Caller) (oid : String) (o : Nat)
    (h : Heap) (w : World) (status : Int) (data : List Nat)
    (hnew : map_find w.ictx.copyup_list o = none) (hret : 0 ≤ c.aio_read_ret) :
    ∃ h1 w1, request_copyup_all (c :: cs) oid o h w = some (.ok h1 w1)
      ∧ fetch_count w1.trace = fetch_count w.trace + 1
      ∧ ∃ h2 w2 rest, fetch_complete c.address status data h1 w1 = some (.ok h2 w2)
          ∧ w2.trace = w1.trace
              ++ (c :: cs).map (fun x => Event.complete x.handle status) ++ rest
          ∧ (∀ e ∈ rest, e.isComplete = false ∧ e.isFetch = false)
          ∧ fetch_count w2.trace = fetch_count w.trace + 1 := by
  obtain ⟨h0, w0, hstep, hreg0, hheap0, hfetch0⟩ := request_copyup_create c oid o h w hnew hret
  obtain ⟨h1, w1, hrun, hreg1, hheap1, hfetch1⟩ :=
    request_copyup_all_join cs oid o c.address _ h0 w0 hreg0 hheap0
  have hrun1 : request_copyup_all (c :: cs) oid o h w = some (.ok h1 w1) := by
    simp only [request_copyup_all, hstep]
    exact hrun
  have hheap : heap_deref h1 c.address
      = some { m_oid := oid, m_object_no := o, m_send_copyup := c.send_copyup,
               m_copyup_data := [],
               m_pending_requests := (c :: cs).map Caller.handle } := by
    rw [hheap1]
    simp [CopyupRequest.new, CopyupRequest.append_request]
  have hmem : o ∈ w1.ictx.copyup_list.map Prod.fst := by
    rw [hreg1]
    by_contra hno
    have := (map_lookup_none_iff _ _).2 ((map_find_none_iff _ _).2 hno)
    rw [hreg0] at this
    exact Option.noConfusion this
  obtain ⟨w2, it, hcb, _, _, _⟩ := read_from_parent_cb_ok
    { m_oid := oid, m_object_no := o, m_send_copyup := c.send_copyup,
      m_copyup_data := data, m_pending_requests := (c :: cs).map Caller.handle } status w1 hmem
  obtain ⟨rest, htrace, hrest⟩ := read_from_parent_cb_rest
    { m_oid := oid, m_object_no := o, m_send_copyup := c.send_copyup,
      m_copyup_data := data, m_pending_requests := (c :: cs).map Caller.handle } status w1
  rw [hcb] at htrace
  simp only [Result.world] at htrace
  have hcompl : fetch_count ((c :: cs).map (fun x => Event.complete x.handle status)) = 0 := by
    unfold fetch_count
    rw [List.length_eq_zero, List.filter_eq_nil_iff]
    intro e he
    simp only [List.mem_map] at he
    obtain ⟨x, _, rfl⟩ := he
    simp [Event.isFetch]
  have hrest0 : fetch_count rest = 0 := by
    unfold fetch_count
    rw [List.length_eq_zero, List.filter_eq_nil_iff]
    intro e he
    simp [(hrest e he).2]
  have htrace2 : w2.trace = w1.trace
      ++ (c :: cs).map (fun x => Event.complete x.handle status) ++ rest := by
    rw [htrace]
    simp [List.map_map, Function.comp_def]
  refine ⟨h1, w1, hrun1, hfetch1.trans hfetch0, heap_free h1 c.address, w2, rest,
    ?_, htrace2, hrest, ?_⟩
  · simp only [fetch_complete, hheap, hcb]
  · rw [htrace2, fetch_count_append, fetch_count_append, hcompl, hrest0, hfetch1, hfetch0]

/-- The scenario of object 42 with the callers A (handle 10) and B (handle
11), fetch status 0: one fetch, both handles completed with 0. -/
theorem single_flight_witness :
    ∃ h1 w1, request_copyup_all
        [{ handle := 10, address := 2000, send_copyup := true,
           image_extents := [(0, 4096)], aio_read_ret := 0 },
         { handle := 11, address := 3000, send_copyup := true,
           image_extents := [(0, 4096)], aio_read_ret := 0 }]
        "rbd_data.1.2a" 42 []
        { ictx := { copyup_list := [], copyup_list_lock := false,
                    snap_lock := 0, snapc := { seq := 3, snaps := [3, 1] } },
          trace := [] } = some (.ok h1 w1)
      ∧ fetch_count w1.trace = 1
      ∧ ∃ h2 w2 rest, fetch_complete 2000 0 [1, 2, 3] h1 w1 = some (.ok h2 w2)
          ∧ w2.trace = w1.trace ++ [Event.complete 10 0, Event.complete 11 0] ++ rest
          ∧ (∀ e ∈ rest, e.isComplete = false ∧ e.isFetch = false)
          ∧ fetch_count w2.trace = 1 := by
  obtain ⟨h1, w1, hrun, hf, h2, w2, rest, hc, ht, hr, hf2⟩ := single_flight
    { handle := 10, address := 2000, send_copyup := true,
      image_extents := [(0, 4096)], aio_read_ret := 0 }
    [{ handle := 11, address := 3000, send_copyup := true,
       image_extents := [(0, 4096)], aio_read_ret := 0 }]
    "rbd_data.1.2a" 42 []
    { ictx := { copyup_list := [], copyup_list_lock := false,
                snap_lock := 0, snapc := { seq := 3, snaps := [3, 1] } },
      trace := [] } 0 [1, 2, 3] rfl (by decide)
  exact ⟨h1, w1, hrun, by simpa [fetch_count] using hf, h2, w2, rest, hc,
    by simpa using ht, hr, by simpa [fetch_count] using hf2⟩

end librbd
